import Mathlib

open Matrix

/-!
Verification of the geometric alignment scorer of `atomorder` (the class
`Rotation` in `atomorder/objectives.py`), as a shallow embedding over exact
rational arithmetic.  numpy float arrays are modelled as total functions into
`ℚ`, numpy matrices as Mathlib matrices; Python exceptions are modelled with
`Except PyErr`.  Out-of-range reads of coordinate arrays are modelled as
total-function reads (they do not occur on well-formed group partitions and no
claim depends on them); every other failure mode relevant to the claims is
modelled explicitly.
-/

/-- The Python exceptions that the embedded code can raise.  `zeroDivision`
stands for the floating-point division whose divisor is exactly zero: numpy
emits an invalid-value NaN there rather than raising, and the NaN then makes
the subsequent `assert np.allclose(A, A.T)` fail; the `ℚ` model has no NaN, so
the model makes that division a distinguishable error at the division itself. -/
inductive PyErr
  | attributeError
  | valueError
  | indexError
  | zeroDivision
  | assertionError
  deriving DecidableEq

/-- The matrix built by `Rotation.makeW` (objectives.py, eqn 16 of Walker91)
from a quaternion `(r1, r2, r3, r4)`; component `i` of the Lean vector is
`r(i+1)` of the source. -/
def makeW (r : Fin 4 → ℚ) : Matrix (Fin 4) (Fin 4) ℚ :=
  !![r 3, r 2, -(r 1), r 0;
     -(r 2), r 3, r 0, r 1;
     r 1, -(r 0), r 3, r 2;
     -(r 0), -(r 1), -(r 2), r 3]

/-- The matrix built by `Rotation.makeQ` (objectives.py, eqn 15 of Walker91). -/
def makeQ (r : Fin 4 → ℚ) : Matrix (Fin 4) (Fin 4) ℚ :=
  !![r 3, -(r 2), r 1, r 0;
     r 2, r 3, -(r 0), r 1;
     -(r 1), r 0, r 3, r 2;
     -(r 0), -(r 1), -(r 2), r 3]

/-- Padding of a 3d coordinate row to a quaternion: `makeW` and `makeQ` are
called as `makeW(*x)` with a 3-entry coordinate row `x`, so the fourth
argument takes its default value `r4 = 0`. -/
def pad3 (v : Fin 3 → ℚ) : Fin 4 → ℚ := ![v 0, v 1, v 2, 0]

/-- The rotation matrix computed by `Rotation.transform`: the top-left 3x3
block of `makeW(r).T.dot(makeQ(r))`. -/
def rot3 (r : Fin 4 → ℚ) : Matrix (Fin 3) (Fin 3) ℚ :=
  let A := (makeW r)ᵀ * makeQ r
  !![A 0 0, A 0 1, A 0 2;
     A 1 0, A 1 1, A 1 2;
     A 2 0, A 2 1, A 2 2]

/-- The translation vector computed by `Rotation.transform`: the top 3 entries
of `makeW(r).T.dot(s)`. -/
def trans3 (r s : Fin 4 → ℚ) : Fin 3 → ℚ :=
  let v := (makeW r)ᵀ *ᵥ s
  ![v 0, v 1, v 2]

/-- `Rotation.transform(r, s)` returns the pair `(rot, trans)`. -/
def transform (r s : Fin 4 → ℚ) : Matrix (Fin 3) (Fin 3) ℚ × (Fin 3 → ℚ) :=
  (rot3 r, trans3 r s)

/-- A numpy 2-d float array of match-matrix shape: its shape `(rows, cols)`
together with a total entry function. -/
@[ext]
structure QMat where
  rows : ℕ
  cols : ℕ
  entry : ℕ → ℕ → ℚ

/-- The immutable data a `Rotation` object is constructed over: `self.X` is
`products_coordinates`, `self.Y` is `reactants_coordinates` (note the swap in
`Rotation.__init__`), the group index lists, and the group counts
`M.num_reactants` / `M.num_products`. -/
structure RotationData where
  X : ℕ → Fin 3 → ℚ
  Y : ℕ → Fin 3 → ℚ
  reactant_subset_indices : List (List ℕ)
  product_subset_indices : List (List ℕ)
  num_reactants : ℕ
  num_products : ℕ

/-- Entry `(u, v)` of the precomputed array `self.Qt_dot_W` from
`interaction_arrays`: `Qt_dot_W = [[q.T.dot(w) for q in Q] for w in W]` with
`W = [makeW(*x) for x in X]` and `Q = [makeQ(*y) for y in Y]`;
`analytical_solver` then reads it at `np.ix_(reactant_indices,
product_indices)`, so the first index `u` ranges over reactant atom numbers
and the second `v` over product atom numbers exactly as in the source. -/
def QtdotW (d : RotationData) (u v : ℕ) : Matrix (Fin 4) (Fin 4) ℚ :=
  (makeQ (pad3 (d.Y v)))ᵀ * makeW (pad3 (d.X u))

/-- Entry `(u, v)` of the precomputed array `self.W_minus_Q = [[w - q for q in
Q] for w in W]`, read at the same index pairs as `QtdotW`. -/
def WmQ (d : RotationData) (u v : ℕ) : Matrix (Fin 4) (Fin 4) ℚ :=
  makeW (pad3 (d.X u)) - makeQ (pad3 (d.Y v))

/-- Sum of `f a b` over the sub-block `reactant_indices x product_indices`,
the `np.sum(..., axis=(0,1))` of the weighted per-pair arrays. -/
def pairSum {α : Type} [AddCommMonoid α] (ri pj : List ℕ) (f : ℕ → ℕ → α) : α :=
  (ri.map fun a => (pj.map fun b => f a b).sum).sum

/-- `C1 = -2*np.sum(match_sub_matrix[:,:,None,None]*Qt_dot_W, axis=(0,1))`. -/
def C1blk (d : RotationData) (m : QMat) (ri pj : List ℕ) : Matrix (Fin 4) (Fin 4) ℚ :=
  (-2 : ℚ) • pairSum ri pj fun a b => m.entry a b • QtdotW d a b

/-- `C2 = match_sub_matrix.sum()`, the total weight of the sub-block. -/
def C2blk (m : QMat) (ri pj : List ℕ) : ℚ :=
  pairSum ri pj fun a b => m.entry a b

/-- `C3 = 2*np.sum(match_sub_matrix[:,:,None,None]*W_minus_Q, axis=(0,1))`. -/
def C3blk (d : RotationData) (m : QMat) (ri pj : List ℕ) : Matrix (Fin 4) (Fin 4) ℚ :=
  (2 : ℚ) • pairSum ri pj fun a b => m.entry a b • WmQ d a b

/-- `A = 0.5*(C3.T.dot(C3)/(2*C2)-C1-C1.T)` of `analytical_solver`; the
division of a matrix by the scalar `2*C2` is multiplication by its inverse
(`ℚ` makes `x / 0 = 0`; the checked solver below flags that divisor). -/
def Ablk (d : RotationData) (m : QMat) (ri pj : List ℕ) : Matrix (Fin 4) (Fin 4) ℚ :=
  ((1 : ℚ) / 2) •
    ((2 * C2blk m ri pj)⁻¹ • ((C3blk d m ri pj)ᵀ * C3blk d m ri pj)
      - C1blk d m ri pj - (C1blk d m ri pj)ᵀ)

/-- `s = -C3.dot(r)/(2*C2)` of `analytical_solver`. -/
def sblk (d : RotationData) (m : QMat) (ri pj : List ℕ) (r : Fin 4 → ℚ) : Fin 4 → ℚ :=
  -((2 * C2blk m ri pj)⁻¹ • (C3blk d m ri pj *ᵥ r))

/-- Deterministic model of `np.linalg.eigh(A)`: the pair
`(eigen[0][-1], eigen[1][:,-1])` of the largest eigenvalue and its
eigenvector.  The eigensolver is a fixed deterministic routine; the claims
below never need more than that, so it is a parameter of the embedding. -/
def EigModel : Type := Matrix (Fin 4) (Fin 4) ℚ → ℚ × (Fin 4 → ℚ)

/-- The value the assignment `self.squared_distances[np.ix_(reactant_indices,
product_indices)] = np.sum((Y[None,:,:] - trans[None,None,:] -
rot.dot(X.T).T[:,None,:])**2, axis=2)` stores at position `(a, b)` (`none`
when `(a, b)` is outside the sub-block).  The right-hand side has shape
`(len(product_indices), len(reactant_indices))` while the target region is
indexed `(reactant, product)`, so for the square sub-blocks on which numpy
accepts the assignment the stored value at `(ri[alpha], pj[beta])` uses the
reactant row `ri[beta]` and the product row `pj[alpha]`, exactly as the
broadcasting produces it. -/
def blkVal (d : RotationData) (rot : Matrix (Fin 3) (Fin 3) ℚ) (tr : Fin 3 → ℚ)
    (ri pj : List ℕ) (a b : ℕ) : Option ℚ :=
  if a ∈ ri ∧ b ∈ pj then
    some (∑ c : Fin 3,
      (d.Y (ri.getD (pj.indexOf b) 0) c - tr c
        - (rot *ᵥ d.X (pj.getD (ri.indexOf a) 0)) c) ^ 2)
  else none

/-- The dual quaternion `(r, s)` that `analytical_solver` computes for one
sub-block: `r = eigen[1][:,-1]` of `A`, then `s = -C3.dot(r)/(2*C2)`. -/
def blkRS (eig : EigModel) (d : RotationData) (m : QMat) (blk : List ℕ × List ℕ) :
    (Fin 4 → ℚ) × (Fin 4 → ℚ) :=
  let r := (eig (Ablk d m blk.1 blk.2)).2
  (r, sblk d m blk.1 blk.2 r)

/-- The per-position update of one sub-block iteration of `analytical_solver`,
as an optional value at `(a, b)`. -/
def blkValOf (eig : EigModel) (d : RotationData) (m : QMat) (blk : List ℕ × List ℕ)
    (a b : ℕ) : Option ℚ :=
  blkVal d (rot3 (blkRS eig d m blk).1)
    (trans3 (blkRS eig d m blk).1 (blkRS eig d m blk).2) blk.1 blk.2 a b

/-- One iteration of the double loop of `analytical_solver`: overwrite the
sub-block of `self.squared_distances` selected by `blk`. -/
def writeBlk (eig : EigModel) (d : RotationData) (m : QMat) (sq : QMat)
    (blk : List ℕ × List ℕ) : QMat :=
  { sq with entry := fun a b => (blkValOf eig d m blk a b).getD (sq.entry a b) }

/-- The `(reactant group, product group)` pairs visited by the double loop of
`analytical_solver`, in loop order (`i` outer, `j` inner). -/
def allBlocks (d : RotationData) : List (List ℕ × List ℕ) :=
  d.reactant_subset_indices.flatMap fun ri =>
    d.product_subset_indices.map fun pj => (ri, pj)

/-- `Rotation.analytical_solver(match)`: run the double loop over group pairs,
updating `self.squared_distances` in place, and return it. -/
def analytical_solver (eig : EigModel) (d : RotationData) (m : QMat) (sq : QMat) : QMat :=
  (allBlocks d).foldl (writeBlk eig d m) sq

/-- The buffer `self.squared_distances = np.zeros(self.M.match_matrix.shape)`
allocated in `Rotation.__init__`. -/
def zeroBuf (m : QMat) : QMat :=
  { rows := m.rows, cols := m.cols, entry := fun _ _ => 0 }

/-- One step of the bookkeeping fold that records the most recent sub-block
value written at a fixed position `(a, b)`: a later sub-block write overwrites
an earlier one. -/
def lastWStep (eig : EigModel) (d : RotationData) (m : QMat) (a b : ℕ)
    (acc : Option ℚ) (blk : List ℕ × List ℕ) : Option ℚ :=
  match blkValOf eig d m blk a b with
  | some v => some v
  | none => acc

/-- The last sub-block value the double loop of `analytical_solver` writes at
position `(a, b)`, if any. -/
def lastW (eig : EigModel) (d : RotationData) (m : QMat)
    (blocks : List (List ℕ × List ℕ)) (a b : ℕ) : Option ℚ :=
  blocks.foldl (lastWStep eig d m a b) none

/-- One sub-block iteration of `analytical_solver` with the zero-divisor and
the two assertions made observable: the computation of `A` divides
`C3.T.dot(C3)` by the scalar `2*C2` with no guard (error when the divisor is
zero, where numpy produces NaN), then `assert np.allclose(A, A.T)`, then
`assert np.allclose(A.dot(r), eigen[0][-1]*r)` for the eigenpair, then the
`s`-division by the same `2*C2` and the sub-block write. -/
def writeBlkChecked (eig : EigModel) (d : RotationData) (m : QMat) (sq : QMat)
    (blk : List ℕ × List ℕ) : Except PyErr QMat :=
  if 2 * C2blk m blk.1 blk.2 = 0 then .error .zeroDivision
  else
    let A := Ablk d m blk.1 blk.2
    if A = Aᵀ then
      if A *ᵥ (eig A).2 = (eig A).1 • (eig A).2 then .ok (writeBlk eig d m sq blk)
      else .error .assertionError
    else .error .assertionError

/-- The double loop of `analytical_solver` in the checked model: the first
exception aborts the call. -/
def analyticalCheckedGo (eig : EigModel) (d : RotationData) (m : QMat) :
    List (List ℕ × List ℕ) → QMat → Except PyErr QMat
  | [], sq => .ok sq
  | blk :: rest, sq =>
    match writeBlkChecked eig d m sq blk with
    | .error e => .error e
    | .ok sq2 => analyticalCheckedGo eig d m rest sq2

/-- `Rotation.analytical_solver(match)` in the checked model. -/
def analytical_solverChecked (eig : EigModel) (d : RotationData) (m : QMat)
    (sq : QMat) : Except PyErr QMat :=
  analyticalCheckedGo eig d m (allBlocks d) sq

/-- The mutable state of a `Rotation` object that `numerical_solver` touches:
the constructed data, `self.q` and `self.squared_distances`. -/
structure RotationState where
  data : RotationData
  q : ℕ → Fin 2 → Fin 4 → ℚ
  squared_distances : QMat

/-- Attribute lookup `self.match_matrix` (objectives.py line 237).
`Rotation.__init__` assigns exactly the attributes `M`, `X`, `Y`, `score`,
`q`, `W`, `Q`, `Qt_dot_W`, `W_minus_Q`, `squared_distances`, and no method of
the class ever assigns `match_matrix`, so this lookup raises
`AttributeError`. -/
def getattrMatchMatrix (_st : RotationState) : Except PyErr QMat :=
  .error .attributeError

/-- Attribute lookup `self.update_quaternions` (objectives.py line 275).  The
class only defines the method `update_quarternions` (note the spelling, line
282), so this lookup raises `AttributeError`. -/
def getattrUpdateQuaternions (_st : RotationState) : Except PyErr Unit :=
  .error .attributeError

/-- Python tuple unpacking `i, reactant_indices = grp` of one element of
`self.M.reactant_subset_indices[1:]` (objectives.py line 211): it succeeds
exactly when the element has length two and raises `ValueError` otherwise. -/
def unpack2 (l : List ℕ) : Except PyErr (ℕ × ℕ) :=
  match l with
  | [a, b] => .ok (a, b)
  | _ => .error .valueError

/-- `q = flat_q.reshape(N+M-1, 2, 4)` in row-major order: transform `k`'s
dual part `s_k` occupies flat slots `8k..8k+3` and its rotation part `r_k`
slots `8k+4..8k+7`. -/
def reshapeQ (flat : ℕ → ℚ) : ℕ → Fin 2 → Fin 4 → ℚ :=
  fun k a b => flat (8 * k + 4 * a.val + b.val)

/-- Row-major flattening of `self.q`, the `x0` that
`scipy.optimize.minimize` passes to the objective. -/
def flattenQ (q : ℕ → Fin 2 → Fin 4 → ℚ) : ℕ → ℚ :=
  fun t => q (t / 8) ⟨t % 8 / 4, by omega⟩ ⟨t % 4, by omega⟩

/-- `np.sum(self.match_matrix*self.squared_distances)` over the match-matrix
shape. -/
def frobSum (mm : QMat) (sq : QMat) : ℚ :=
  ∑ a ∈ Finset.range mm.rows, ∑ b ∈ Finset.range mm.cols, mm.entry a b * sq.entry a b

/-- One iteration of the loop `for i, reactant_indices in
self.M.reactant_subset_indices[1:]` in `objective` (lines 211-214): the
two-tuple unpacking of the group's index list, then on the right-hand side
`trans[M+i]` and `rot[M+i]` index arrays of length `N+M-1` with `i` an atom
number (IndexError when out of range), and finally the assignment target
`np.ix_(reactant_indices, ...)` is built from the scalar `reactant_indices`,
which `np.ix_` rejects with ValueError (cross index must be 1-dimensional).
Every path raises. -/
def innerReactantStep (d : RotationData) (nm1 : ℕ) (grp : List ℕ) : Except PyErr QMat :=
  match unpack2 grp with
  | .error e => .error e
  | .ok iv =>
    if d.num_products + iv.1 < nm1 then .error .valueError
    else .error .indexError

/-- The loop body of `objective` (lines 178-214): build the `N+M-1` rotation
matrices and translation vectors from the reshaped state, write the
reference-to-product sub-blocks of `self.squared_distances` (line 198, with
the same transposed broadcasting as in `analytical_solver`), and run the
remaining-reactants inner loop. -/
def outerLoop (d : RotationData) (qr : ℕ → Fin 2 → Fin 4 → ℚ) (sq0 : QMat) :
    Except PyErr QMat :=
  let nm1 := d.num_reactants + d.num_products - 1
  let rots := (List.range nm1).map fun k => rot3 (qr k 1)
  let trs := (List.range nm1).map fun k => trans3 (qr k 1) (qr k 0)
  let ref := d.reactant_subset_indices.headD []
  d.product_subset_indices.enum.foldlM
    (fun sq jp =>
      let rotj := rots.getD jp.1 0
      let trj := trs.getD jp.1 (fun _ => 0)
      let sq1 : QMat :=
        { sq with entry := fun a b => (blkVal d rotj trj ref jp.2 a b).getD (sq.entry a b) }
      d.reactant_subset_indices.tail.foldlM
        (fun _sq2 grp => innerReactantStep d nm1 grp) sq1)
    sq0

/-- The inner function `objective(flat_q, match, self)` of `numerical_solver`
(objectives.py lines 166-237).  Its final statement is
`return np.sum(self.match_matrix*self.squared_distances)`, whose attribute
lookup fails; the `match` argument is unused by the live code. -/
def objective (st : RotationState) (flat : ℕ → ℚ) (_m : QMat) : Except PyErr ℚ :=
  match outerLoop st.data (reshapeQ flat) st.squared_distances with
  | .error e => .error e
  | .ok sq =>
    match getattrMatchMatrix st with
    | .error e => .error e
    | .ok mm => .ok (frobSum mm sq)

/-- `Rotation.numerical_solver(match)` (objectives.py lines 146-276):
`scipy.optimize.minimize(objective, self.q, method="SLSQP", ...)` evaluates
the objective at the flattened initial point `self.q` first, and an exception
raised inside the objective propagates to the caller; if the optimization
completed, the epilogue `self.update_quaternions(opt.x.reshape(...))` would
run, whose attribute lookup fails (the method is spelled
`update_quarternions`). -/
def numerical_solver (st : RotationState) (m : QMat) : Except PyErr QMat :=
  match objective st (flattenQ st.q) m with
  | .error e => .error e
  | .ok _E =>
    match getattrUpdateQuaternions st with
    | .error e => .error e
    | .ok _ => .ok st.squared_distances

/-- The body of the lambda `cons[2*j]["fun"] = lambda x:
np.sum(x[8*j+4:8*j+8]*x[8*j+4:8*j+8]) - 1` (objectives.py line 258), as a
function of the captured variable `j` and the call argument `x`. -/
def rrFun (j : ℕ) (x : ℕ → ℚ) : ℚ :=
  (((List.range 4).map fun t => x (8 * j + 4 + t) * x (8 * j + 4 + t)).sum) - 1

/-- The body of the lambda `cons[2*j+1]["fun"] = lambda x:
np.sum(x[8*j+4:8*j+8]*x[8*j:8*j+4])` (objectives.py line 259). -/
def rsFun (j : ℕ) (x : ℕ → ℚ) : ℚ :=
  ((List.range 4).map fun t => x (8 * j + 4 + t) * x (8 * j + t)).sum

/-- The constraint array built by the loop `for j in range(M+N-1)` of
`numerical_solver`: positions `2j` and `2j+1` hold the two lambdas.  A Python
lambda captures the loop variable `j` itself, not its value at creation time,
so every entry of the list is the same closure body awaiting the current
value of `j`; the per-iteration index is not baked into the entry. -/
def consArray (N M : ℕ) : List (ℕ → (ℕ → ℚ) → ℚ) :=
  (List.range (M + N - 1)).flatMap fun _ => [rrFun, rsFun]

/-- Calling one stored constraint function: the calls happen inside
`scipy.optimize.minimize`, after the loop has finished, when the captured
variable `j` holds its final value `M+N-2`. -/
def consCall (N M : ℕ) (f : ℕ → (ℕ → ℚ) → ℚ) (x : ℕ → ℚ) : ℚ :=
  f (M + N - 2) x

/-- The 8 bound pairs appended per transform by `numerical_solver`
(objectives.py lines 268-271): `bounds.extend([(None, None)]*4)` then
`bounds.extend([(-1, 1)]*4)`. -/
def boundBlock : List (Option ℚ × Option ℚ) :=
  List.replicate 4 (none, none) ++ List.replicate 4 (some (-1), some 1)

/-- The bounds list built by the loop `for j in range(M+N-1)`. -/
def boundsFor (N M : ℕ) : List (Option ℚ × Option ℚ) :=
  (List.range (M + N - 1)).foldl (fun acc _ => acc ++ boundBlock) []

/-- Flat slot of component `i` of the dual part `s_k` under the row-major
layout `q[k,0] = s_k` (see `reshapeQ`). -/
def sSlot (k i : ℕ) : ℕ := 8 * k + i

/-- Flat slot of component `i` of the rotation part `r_k` under the row-major
layout `q[k,1] = r_k` (see `reshapeQ`). -/
def rSlot (k i : ℕ) : ℕ := 8 * k + 4 + i

/-- `Rotation.initialize_quaternions` (the source name carries this spelling):
`q = np.zeros((N+M-1, 2, 4)); q[:,1,3] = 1`, one dual quaternion pair
`(s, r)` per transform, `s = (0,0,0,0)` and `r = (0,0,0,1)`. -/
def initQuaternions (N M : ℕ) : Fin (N + M - 1) → Fin 2 → Fin 4 → ℚ :=
  fun _ a b => if a = 1 ∧ b = 3 then 1 else 0

/-- The two solver methods `Rotation.set_solver` can select. -/
inductive SolverKind
  | analytical
  | numerical
  deriving DecidableEq

/-- `Rotation.set_solver`: `analytical_solver` when `num_reactants == 1 or
num_products == 1`, else `numerical_solver`; stored once into `self.score`
at construction. -/
def set_solver (num_reactants num_products : ℕ) : SolverKind :=
  if num_reactants = 1 ∨ num_products = 1 then SolverKind.analytical
  else SolverKind.numerical

/-- A fixed concrete eigensolver stand-in for closed evaluations. -/
def eigZero : EigModel := fun _ => (0, fun _ => 0)

/-- One reactant group `[0]`, one product group `[0]`, all coordinates zero:
the smallest single-body instance. -/
def dZero : RotationData :=
  { X := fun _ _ => 0
    Y := fun _ _ => 0
    reactant_subset_indices := [[0]]
    product_subset_indices := [[0]]
    num_reactants := 1
    num_products := 1 }

/-- The all-zero 1x1 match matrix. -/
def mZero : QMat := { rows := 1, cols := 1, entry := fun _ _ => 0 }

/-- The all-ones 1x1 match matrix. -/
def mOne : QMat := { rows := 1, cols := 1, entry := fun _ _ => 1 }

/-- A concrete flat state for `N = M = 2` (three transforms): `r_1` and `r_2`
are the unit quaternion `(0,0,0,1)` (slots 15 and 23), while `r_0` is the
zero quaternion; all dual parts are zero. -/
def xC2 : ℕ → ℚ := fun t => if t = 15 ∨ t = 23 then 1 else 0

/-- A concrete two-group-by-two-group state (`num_reactants = num_products =
2`), the smallest input dispatched to `numerical_solver`. -/
def stNum : RotationState :=
  { data :=
    { X := fun _ _ => 0
      Y := fun _ _ => 0
      reactant_subset_indices := [[0], [1]]
      product_subset_indices := [[0], [1]]
      num_reactants := 2
      num_products := 2 }
    q := fun _ a b => if a = 1 ∧ b = 3 then 1 else 0
    squared_distances := { rows := 2, cols := 2, entry := fun _ _ => 0 } }

/-- The all-ones 2x2 match matrix. -/
def mNum : QMat := { rows := 2, cols := 2, entry := fun _ _ => 1 }

/-- A second concrete two-group-by-two-group state, for the idempotence
claim: three reactant atoms in two groups against two product atoms in two
groups. -/
def stTwo : RotationState :=
  { data :=
    { X := fun n _ => (n : ℚ)
      Y := fun n _ => (n : ℚ) + 1
      reactant_subset_indices := [[0, 1], [2]]
      product_subset_indices := [[0], [1]]
      num_reactants := 2
      num_products := 2 }
    q := fun _ a b => if a = 1 ∧ b = 3 then 1 else 0
    squared_distances := { rows := 3, cols := 2, entry := fun _ _ => 0 } }

/-- The all-ones 3x2 match matrix. -/
def mTwo : QMat := { rows := 3, cols := 2, entry := fun _ _ => 1 }

/-- Explicit entries of the rotation block `makeW(r).T.dot(makeQ(r))[:3,:3]`. -/
theorem rot3_eq (r : Fin 4 → ℚ) :
    rot3 r = !![r 0 ^ 2 - r 1 ^ 2 - r 2 ^ 2 + r 3 ^ 2, 2 * (r 0 * r 1) - 2 * (r 2 * r 3), 2 * (r 0 * r 2) + 2 * (r 1 * r 3);
                2 * (r 0 * r 1) + 2 * (r 2 * r 3), -(r 0 ^ 2) + r 1 ^ 2 - r 2 ^ 2 + r 3 ^ 2, 2 * (r 1 * r 2) - 2 * (r 0 * r 3);
                2 * (r 0 * r 2) - 2 * (r 1 * r 3), 2 * (r 1 * r 2) + 2 * (r 0 * r 3), -(r 0 ^ 2) - r 1 ^ 2 + r 2 ^ 2 + r 3 ^ 2] := by
  ext i j
  fin_cases i <;> fin_cases j <;>
  · simp only [rot3, Matrix.mul_apply, Matrix.transpose_apply, Fin.sum_univ_four,
      Matrix.cons_val', Matrix.cons_val_zero, Matrix.cons_val_one, Matrix.head_cons,
      Matrix.empty_val', Matrix.cons_val_fin_one, Matrix.head_fin_const, Matrix.of_apply,
      Matrix.cons_val_two, Matrix.cons_val_three, Matrix.tail_cons]
    simp [makeW, makeQ]
    ring

/-- C4: for every quaternion `r` of unit norm, the 3x3 block
`makeW(r).T.dot(makeQ(r))[:3,:3]` computed by `Rotation.transform` is a
proper rotation matrix: orthogonal with determinant +1. -/
theorem claim_C4 (r : Fin 4 → ℚ) (h : r 0 ^ 2 + r 1 ^ 2 + r 2 ^ 2 + r 3 ^ 2 = 1) :
    (rot3 r)ᵀ * rot3 r = 1 ∧ (rot3 r).det = 1 := by
  constructor
  · rw [rot3_eq]
    ext i j
    fin_cases i <;> fin_cases j <;>
      simp only [Matrix.mul_apply, Matrix.transpose_apply, Fin.sum_univ_three,
        Matrix.cons_val', Matrix.cons_val_zero, Matrix.cons_val_one, Matrix.head_cons,
        Matrix.empty_val', Matrix.cons_val_fin_one, Matrix.head_fin_const, Matrix.of_apply,
        Matrix.cons_val_two, Matrix.tail_cons, Matrix.one_apply] <;>
      norm_num [Fin.ext_iff] <;>
      first
      | linear_combination (r 0 ^ 2 + r 1 ^ 2 + r 2 ^ 2 + r 3 ^ 2 + 1) * h
      | ring
  · rw [rot3_eq, Matrix.det_fin_three]
    simp only [Matrix.cons_val', Matrix.cons_val_zero, Matrix.cons_val_one, Matrix.head_cons,
      Matrix.empty_val', Matrix.cons_val_fin_one, Matrix.head_fin_const, Matrix.of_apply,
      Matrix.cons_val_two, Matrix.tail_cons]
    linear_combination ((r 0 ^ 2 + r 1 ^ 2 + r 2 ^ 2 + r 3 ^ 2) ^ 2
      + (r 0 ^ 2 + r 1 ^ 2 + r 2 ^ 2 + r 3 ^ 2) + 1) * h

/-- Witness for C4 at the concrete unit quaternion `(3/5, 4/5, 0, 0)`. -/
theorem claim_C4_witness :
    ((![3/5, 4/5, 0, 0] : Fin 4 → ℚ) 0 ^ 2 + (![3/5, 4/5, 0, 0] : Fin 4 → ℚ) 1 ^ 2
      + (![3/5, 4/5, 0, 0] : Fin 4 → ℚ) 2 ^ 2 + (![3/5, 4/5, 0, 0] : Fin 4 → ℚ) 3 ^ 2 = 1) ∧
    ((rot3 ![3/5, 4/5, 0, 0])ᵀ * rot3 ![3/5, 4/5, 0, 0] = 1 ∧ (rot3 ![3/5, 4/5, 0, 0]).det = 1) :=
  ⟨by norm_num, claim_C4 ![3/5, 4/5, 0, 0] (by norm_num)⟩

/-- C8: with real arithmetic, the 4x4 matrix `A = 0.5*(C3.T.dot(C3)/(2*C2) -
C1 - C1.T)` of `analytical_solver` is symmetric for every sub-block with
nonzero total weight, so `assert np.allclose(A, A.T)` never fails there. -/
theorem claim_C8 (d : RotationData) (m : QMat) (ri pj : List ℕ)
    (h : C2blk m ri pj ≠ 0) : (Ablk d m ri pj)ᵀ = Ablk d m ri pj := by
  unfold Ablk
  rw [Matrix.transpose_smul, Matrix.transpose_sub, Matrix.transpose_sub,
    Matrix.transpose_smul, Matrix.transpose_mul, Matrix.transpose_transpose,
    Matrix.transpose_transpose, sub_right_comm]

/-- Witness for C8 on the concrete one-atom instance with unit weight. -/
theorem claim_C8_witness :
    C2blk mOne [0] [0] ≠ 0 ∧ (Ablk dZero mOne [0] [0])ᵀ = Ablk dZero mOne [0] [0] :=
  ⟨by simp [C2blk, pairSum, mOne], claim_C8 dZero mOne [0] [0] (by simp [C2blk, pairSum, mOne])⟩

/-- C9: `set_solver` selects the analytical solver exactly when one side has
a single rigid group, and the numerical solver otherwise. -/
theorem claim_C9 (nR nP : ℕ) :
    (set_solver nR nP = SolverKind.analytical ↔ (nR = 1 ∨ nP = 1)) ∧
    (set_solver nR nP = SolverKind.numerical ↔ ¬(nR = 1 ∨ nP = 1)) := by
  unfold set_solver
  split_ifs with h <;> simp [h]

/-- C10: the transform state built by the quaternion initializer holds exactly
`N+M-1` dual quaternions (the index type of the state array), each with dual
part `s = (0,0,0,0)` and rotation part `r = (0,0,0,1)`, and each is the
identity transform: `Rotation.transform` maps it to the identity rotation
matrix and the zero translation. -/
theorem claim_C10 (N M : ℕ) (k : Fin (N + M - 1)) :
    (∀ i, initQuaternions N M k 0 i = 0) ∧
    initQuaternions N M k 1 3 = 1 ∧
    (∀ i, i ≠ 3 → initQuaternions N M k 1 i = 0) ∧
    transform (initQuaternions N M k 1) (initQuaternions N M k 0) = (1, 0) := by
  have hs : initQuaternions N M k 0 = 0 := by
    funext i
    simp [initQuaternions]
  have hr : initQuaternions N M k 1 = fun b => if b = 3 then 1 else 0 := by
    funext b
    simp [initQuaternions]
  refine ⟨fun i => by simp [initQuaternions], by simp [initQuaternions],
    fun i hi => by simp [initQuaternions, hi], ?_⟩
  rw [transform, Prod.mk.injEq, hs, hr]
  constructor
  · rw [rot3_eq]
    ext i j
    fin_cases i <;> fin_cases j <;> simp [Matrix.one_apply, Matrix.vecHead, Matrix.vecTail]
  · rw [trans3]
    simp only [Matrix.mulVec_zero]
    funext i
    fin_cases i <;> norm_num

/-- Applying `lastWStep` with an arbitrary accumulator and then reading with a
default is the same as applying it with `none` and pushing the accumulator
into the default. -/
theorem lastWStep_getD (eig : EigModel) (d : RotationData) (m : QMat) (a b : ℕ)
    (acc : Option ℚ) (blk : List ℕ × List ℕ) (x : ℚ) :
    (lastWStep eig d m a b acc blk).getD x
      = (lastWStep eig d m a b none blk).getD (acc.getD x) := by
  unfold lastWStep
  cases blkValOf eig d m blk a b <;> simp

/-- With the accumulator `none`, `lastWStep` returns exactly the sub-block
value at `(a, b)`. -/
theorem lastWStep_none (eig : EigModel) (d : RotationData) (m : QMat) (a b : ℕ)
    (blk : List ℕ × List ℕ) :
    lastWStep eig d m a b none blk = blkValOf eig d m blk a b := by
  unfold lastWStep
  cases h : blkValOf eig d m blk a b <;> simp

/-- The accumulator of the `lastW` fold can be pushed into the read default. -/
theorem foldl_lastWStep_getD (eig : EigModel) (d : RotationData) (m : QMat) (a b : ℕ)
    (blocks : List (List ℕ × List ℕ)) :
    ∀ (acc : Option ℚ) (x : ℚ),
      (blocks.foldl (lastWStep eig d m a b) acc).getD x
        = (blocks.foldl (lastWStep eig d m a b) none).getD (acc.getD x) := by
  induction blocks with
  | nil => intro acc x; simp
  | cons blk rest ih =>
    intro acc x
    simp only [List.foldl_cons]
    rw [ih (lastWStep eig d m a b acc blk) x,
      ih (lastWStep eig d m a b none blk) (acc.getD x), lastWStep_getD]

/-- Pointwise characterisation of the double loop of `analytical_solver`: the
entry at `(a, b)` of the folded buffer is the last sub-block value written
there, or the initial buffer entry when no sub-block covers `(a, b)`. -/
theorem foldl_writeBlk_entry (eig : EigModel) (d : RotationData) (m : QMat)
    (blocks : List (List ℕ × List ℕ)) :
    ∀ (sq : QMat) (a b : ℕ),
      (blocks.foldl (writeBlk eig d m) sq).entry a b
        = (lastW eig d m blocks a b).getD (sq.entry a b) := by
  induction blocks with
  | nil => intro sq a b; rfl
  | cons blk rest ih =>
    intro sq a b
    simp only [List.foldl_cons, lastW]
    rw [ih (writeBlk eig d m sq blk) a b]
    show (lastW eig d m rest a b).getD ((blkValOf eig d m blk a b).getD (sq.entry a b))
      = (rest.foldl (lastWStep eig d m a b) (lastWStep eig d m a b none blk)).getD (sq.entry a b)
    rw [foldl_lastWStep_getD, lastWStep_none, lastW]

/-- The double loop of `analytical_solver` only writes entries: the shape of
the buffer is unchanged. -/
theorem foldl_writeBlk_shape (eig : EigModel) (d : RotationData) (m : QMat)
    (blocks : List (List ℕ × List ℕ)) :
    ∀ sq : QMat,
      (blocks.foldl (writeBlk eig d m) sq).rows = sq.rows ∧
      (blocks.foldl (writeBlk eig d m) sq).cols = sq.cols := by
  induction blocks with
  | nil => intro sq; exact ⟨rfl, rfl⟩
  | cons blk rest ih => intro sq; exact ih (writeBlk eig d m sq blk)

/-- Every sub-block value is a sum of three squares, hence nonnegative. -/
theorem blkValOf_nonneg (eig : EigModel) (d : RotationData) (m : QMat)
    (blk : List ℕ × List ℕ) (a b : ℕ) (v : ℚ)
    (h : blkValOf eig d m blk a b = some v) : 0 ≤ v := by
  unfold blkValOf blkVal at h
  split at h
  · injection h with h2
    rw [h2.symm]
    exact Finset.sum_nonneg fun c _ => sq_nonneg _
  · exact absurd h (by simp)

/-- The last-written value at any position, if present, is nonnegative. -/
theorem lastW_nonneg (eig : EigModel) (d : RotationData) (m : QMat) (a b : ℕ)
    (blocks : List (List ℕ × List ℕ)) :
    ∀ acc : Option ℚ, (∀ v, acc = some v → 0 ≤ v) →
      ∀ v, blocks.foldl (lastWStep eig d m a b) acc = some v → 0 ≤ v := by
  induction blocks with
  | nil => intro acc hacc v hv; exact hacc v hv
  | cons blk rest ih =>
    intro acc hacc v hv
    refine ih (lastWStep eig d m a b acc blk) ?_ v hv
    intro w hw
    unfold lastWStep at hw
    rcases h2 : blkValOf eig d m blk a b with _ | u
    · rw [h2] at hw
      exact hacc w hw
    · rw [h2] at hw
      injection hw with hw2
      exact hw2 ▸ blkValOf_nonneg eig d m blk a b u h2

/-- The objective of `numerical_solver` raises on every input: whatever the
loops do, the trailing `return np.sum(self.match_matrix *
self.squared_distances)` reads the never-assigned attribute `match_matrix`. -/
theorem objectiveErrors (st : RotationState) (flat : ℕ → ℚ) (m : QMat) :
    ∃ e, objective st flat m = Except.error e := by
  unfold objective
  cases h : outerLoop st.data (reshapeQ flat) st.squared_distances with
  | error e => exact ⟨e, by simp [h]⟩
  | ok sq => exact ⟨.attributeError, by simp [h, getattrMatchMatrix]⟩

/-- `numerical_solver` raises on every input: the first SLSQP evaluation of
the objective raises, and even a completed optimization would raise on the
misspelled `self.update_quaternions`. -/
theorem numericalSolverErrors (st : RotationState) (m : QMat) :
    ∃ e, numerical_solver st m = Except.error e := by
  unfold numerical_solver
  cases h : objective st (flattenQ st.q) m with
  | error e => exact ⟨e, by simp [h]⟩
  | ok E => exact ⟨.attributeError, by simp [h, getattrUpdateQuaternions]⟩

/-- C3: on every input with more than one rigid group on each side (the
inputs dispatched to `numerical_solver`), the solver raises before returning
a squared-distance matrix or storing a transform estimate, and its inner
objective raises at every evaluation point. -/
theorem claim_C3 (st : RotationState) (m : QMat)
    (h1 : 1 < st.data.num_reactants) (h2 : 1 < st.data.num_products) :
    (∀ flat, ∃ e, objective st flat m = Except.error e) ∧
    (∃ e, numerical_solver st m = Except.error e) :=
  ⟨fun flat => objectiveErrors st flat m, numericalSolverErrors st m⟩

/-- Witness for C3 at the concrete two-by-two-group instance. -/
theorem claim_C3_witness :
    (1 < stNum.data.num_reactants ∧ 1 < stNum.data.num_products) ∧
    ((∀ flat, ∃ e, objective stNum flat mNum = Except.error e) ∧
      (∃ e, numerical_solver stNum mNum = Except.error e)) :=
  ⟨⟨by norm_num [stNum], by norm_num [stNum]⟩,
    claim_C3 stNum mNum (by norm_num [stNum]) (by norm_num [stNum])⟩

/-- C6 (amended): the analytical path is idempotent exactly: a second call of
`analytical_solver` with the same match matrix, starting from the buffer the
first call produced, returns the same matrix. -/
theorem claim_C6 (eig : EigModel) (d : RotationData) (m : QMat) (sq : QMat) :
    analytical_solver eig d m (analytical_solver eig d m sq)
      = analytical_solver eig d m sq := by
  refine QMat.ext ?_ ?_ ?_
  · exact (foldl_writeBlk_shape eig d m (allBlocks d) (analytical_solver eig d m sq)).1
  · exact (foldl_writeBlk_shape eig d m (allBlocks d) (analytical_solver eig d m sq)).2
  · funext a b
    show ((allBlocks d).foldl (writeBlk eig d m) (analytical_solver eig d m sq)).entry a b
      = (analytical_solver eig d m sq).entry a b
    rw [foldl_writeBlk_entry]
    cases h : lastW eig d m (allBlocks d) a b with
    | none => simp
    | some v =>
      simp only [Option.getD_some]
      show v = (analytical_solver eig d m sq).entry a b
      unfold analytical_solver
      rw [foldl_writeBlk_entry, h, Option.getD_some]

/-- C6 counterexample: on a concrete input with two rigid groups on each side
the scorer dispatches to `numerical_solver`, which returns no squared-distance
matrix at all (it raises), so the two sides of the claimed idempotence
equation do not exist for the numerical path. -/
theorem claim_C6_counterexample :
    set_solver 2 2 = SolverKind.numerical ∧
    ∃ e, numerical_solver stTwo mTwo = Except.error e :=
  ⟨by norm_num [set_solver], numericalSolverErrors stTwo mTwo⟩

/-- C7: the squared-distance matrix the analytical solver returns (starting
from the zero buffer allocated at construction) has the shape of the match
matrix and every entry nonnegative -- each written entry is a sum of squares
of rational differences and unwritten entries keep the zero initial value. -/
theorem claim_C7 (eig : EigModel) (d : RotationData) (m : QMat) :
    (analytical_solver eig d m (zeroBuf m)).rows = m.rows ∧
    (analytical_solver eig d m (zeroBuf m)).cols = m.cols ∧
    ∀ a b, 0 ≤ (analytical_solver eig d m (zeroBuf m)).entry a b := by
  refine ⟨(foldl_writeBlk_shape eig d m (allBlocks d) (zeroBuf m)).1,
    (foldl_writeBlk_shape eig d m (allBlocks d) (zeroBuf m)).2, ?_⟩
  intro a b
  unfold analytical_solver
  rw [foldl_writeBlk_entry]
  cases h : lastW eig d m (allBlocks d) a b with
  | none => simp [zeroBuf]
  | some v =>
    simp only [Option.getD_some]
    exact lastW_nonneg eig d m a b (allBlocks d) none (by simp) v h

/-- C1: on the all-zero match matrix the single-body path is not
special-cased: the sub-block weight `C2` is zero and `analytical_solver`
unconditionally divides by `2*C2`, so the checked model aborts at that
division (numpy produces NaN there and then crashes on its own
`assert np.allclose(A, A.T)`, since NaN compares unequal). -/
theorem claim_C1 :
    C2blk mZero [0] [0] = 0 ∧
    analytical_solverChecked eigZero dZero mZero (zeroBuf mZero)
      = Except.error PyErr.zeroDivision := by
  have h : 2 * C2blk mZero [0] [0] = 0 := by simp [C2blk, pairSum, mZero]
  refine ⟨by simp [C2blk, pairSum, mZero], ?_⟩
  have hblocks : allBlocks dZero = [([0], [0])] := by simp [allBlocks, dZero]
  unfold analytical_solverChecked
  rw [hblocks]
  unfold analyticalCheckedGo writeBlkChecked
  rw [if_pos h]

/-- C2: the constraint array has the claimed length `2(N+M-1)`, but because
the lambdas close over the loop variable `j`, every stored constraint
evaluates the last transform: at the state `xC2`, whose transform 0 has the
zero rotation quaternion (violating the unit-norm constraint by `-1`), every
one of the six stored constraint functions evaluates to `0`. -/
theorem claim_C2 :
    (consArray 2 2).length = 2 * (2 + 2 - 1) ∧
    (∀ f ∈ consArray 2 2, consCall 2 2 f xC2 = 0) ∧
    rrFun 0 xC2 = -1 := by
  refine ⟨rfl, ?_, by norm_num [rrFun, xC2, List.range_succ]⟩
  intro f hf
  have he : consArray 2 2 = [rrFun, rsFun, rrFun, rsFun, rrFun, rsFun] := rfl
  rw [he] at hf
  simp only [List.mem_cons, List.not_mem_nil, or_false] at hf
  rcases hf with h | h | h | h | h | h <;> subst h <;>
    norm_num [consCall, rrFun, rsFun, xC2, List.range_succ]

/-- The bounds list is `M+N-1` copies of the 8-entry block. -/
theorem boundsFor_eq (N M : ℕ) :
    boundsFor N M = (List.replicate (M + N - 1) boundBlock).flatten := by
  have aux : ∀ (n : ℕ) (acc : List (Option ℚ × Option ℚ)),
      (List.range n).foldl (fun a _ => a ++ boundBlock) acc
        = acc ++ (List.replicate n boundBlock).flatten := by
    intro n
    induction n with
    | zero => intro acc; simp
    | succ k ih =>
      intro acc
      rw [List.range_succ, List.foldl_append, ih acc]
      simp [List.replicate_succ', List.flatten_append]
  unfold boundsFor
  rw [aux (M + N - 1) []]
  simp

/-- Reading slot `8k+i` of the flattened replicated blocks reads slot `i` of
one block. -/
theorem flattenRep_get (n k i : ℕ) (hk : k < n) (hi : i < 8) :
    ((List.replicate n boundBlock).flatten)[8 * k + i]? = boundBlock[i]? := by
  induction n generalizing k with
  | zero => omega
  | succ nn ih =>
    rw [List.replicate_succ, List.flatten_cons]
    have hlen : boundBlock.length = 8 := rfl
    rcases Nat.eq_zero_or_pos k with hk0 | hkpos
    · subst hk0
      rw [List.getElem?_append]
      simp only [Nat.mul_zero, Nat.zero_add, hlen]
      rw [if_pos hi]
    · rw [List.getElem?_append_right (by omega : boundBlock.length ≤ 8 * k + i)]
      have harith : 8 * k + i - boundBlock.length = 8 * (k - 1) + i := by
        rw [hlen]; omega
      rw [harith]
      exact ih (k - 1) (by omega)

/-- C5 (amended): for every transform `k` the box bounds leave the dual
components `s_k` (the first four slots of the transform's 8 parameters)
unbounded, `(None, None)`, and bound every rotation component `r_k` (the last
four slots) within `[-1, 1]`. -/
theorem claim_C5 (N M k i : ℕ) (hk : k < M + N - 1) (hi : i < 4) :
    (boundsFor N M)[sSlot k i]? = some (none, none) ∧
    (boundsFor N M)[rSlot k i]? = some (some (-1), some 1) := by
  rw [boundsFor_eq]
  constructor
  · show ((List.replicate (M + N - 1) boundBlock).flatten)[8 * k + i]? = some (none, none)
    rw [flattenRep_get (M + N - 1) k i hk (by omega)]
    unfold boundBlock
    rw [List.getElem?_append, List.length_replicate, if_pos hi, List.getElem?_replicate,
      if_pos hi]
  · show ((List.replicate (M + N - 1) boundBlock).flatten)[8 * k + 4 + i]?
      = some (some (-1), some 1)
    rw [show 8 * k + 4 + i = 8 * k + (4 + i) from by omega]
    rw [flattenRep_get (M + N - 1) k (4 + i) hk (by omega)]
    unfold boundBlock
    rw [List.getElem?_append_right (by simp), List.length_replicate,
      show 4 + i - 4 = i from by omega, List.getElem?_replicate, if_pos hi]

/-- C5 counterexample: at `N = M = 2`, the bound stored for the first dual
slot `s_0[0]` is `(None, None)` -- unbounded -- and the bound stored for the
first rotation slot `r_0[0]` is `(-1, 1)` -- bounded -- the opposite of the
claimed assignment. -/
theorem claim_C5_counterexample :
    (boundsFor 2 2)[sSlot 0 0]? = some (none, none) ∧
    (boundsFor 2 2)[rSlot 0 0]? = some (some (-1), some 1) := by
  decide

/-- Witness for C5 at `N = M = 2`, transform 1, component 2. -/
theorem claim_C5_witness :
    ((1 : ℕ) < 2 + 2 - 1 ∧ (2 : ℕ) < 4) ∧
    ((boundsFor 2 2)[sSlot 1 2]? = some (none, none) ∧
      (boundsFor 2 2)[rSlot 1 2]? = some (some (-1), some 1)) :=
  ⟨⟨by norm_num, by norm_num⟩, claim_C5 2 2 1 2 (by norm_num) (by norm_num)⟩
